import Mathlib

/-!
A verification development for the docker/notary metadata pipeline.

The Go sources are shallowly embedded: byte strings become `List Nat`,
Go maps become association lists with Go's assignment semantics
(`insertKV`), fallible functions return `Except`, and the cryptographic
primitives (key-id derivation, signature checking, hashing, canonical
JSON marshalling) are abstracted into a `Crypto` record of pure
functions, mirroring how the Go code delegates to crypto/JSON libraries.

Embedded components:
  * `server/handlers/validation.go`: `checkRoot`, `checkSnapshotEntries`,
    `checkHashes`, `prepRepo`, `generateSnapshot` and the
    snapshot-fallback branch of `validateUpdate`;
  * the client (`client.go` / `helpers.go`): `applyChangelist`,
    `applyTargetsChange`, `nearExpiry`, `Publish`'s control flow and
    `bootstrapClient`'s root-fetch fallback;
  * `tuf/store/httpstore.go`: `GetMeta` and `translateStatusToError`;
  * the remote signer (`signer/client.go`): `GetPrivateKey`;
  * `gotuf/utils/utils.go`: `FileExists`.
-/

/-- Byte strings (`[]byte` in Go). -/
abbrev Bytes := List Nat

/-- Source `data.PublicKey`: an algorithm tag plus opaque public bytes. -/
structure PublicKey where
  algorithm : String
  public : Bytes
deriving DecidableEq

/-- Source `data.Signature`: a signature over the canonicalized signed body. -/
structure Signature where
  keyID : String
  method : String
  signature : Bytes
deriving DecidableEq

/-- Source `data.FileMeta`: byte length plus a map of hash-algorithm name to digest. -/
structure FileMeta where
  length : Int
  hashes : List (String × Bytes)
deriving DecidableEq

/-- Source `data.RootRole`: the key ids and threshold a root declares for one role. -/
structure RootRole where
  keyIDs : List String
  threshold : Int
deriving DecidableEq

/-- Source `data.SignedRoot`, restricted to the fields the validation code reads:
the key map, the role map and the signatures carried alongside. -/
structure SignedRoot where
  keys : List (String × PublicKey)
  roles : List (String × RootRole)
  signatures : List Signature
deriving DecidableEq

/-- Source `data.SignedSnapshot`, restricted to the fields the validation code
reads: version, the role-name-to-`FileMeta` map, and the signatures. -/
structure SignedSnapshot where
  version : Int
  meta : List (String × FileMeta)
  signatures : List Signature
deriving DecidableEq

/-- Source `data.SignedTargets`, as an opaque payload: none of the embedded code
inspects targets bodies beyond carrying them around. -/
structure TargetsData where
  version : Int
deriving DecidableEq

/-- Source `storage.MetaUpdate`: one proposed role update in a server-side bundle. -/
structure MetaUpdate where
  role : String
  version : Int
  data : Bytes
deriving DecidableEq

/-- The cryptographic and serialization primitives the Go code obtains from
libraries, abstracted as pure functions: `keyID alg pub` is
`data.NewPublicKey(alg, pub).ID()`, `verifySig method pub body sig` is the
signature-algorithm verifier, `doHash` is `utils.DoHash`, and the
marshal/unmarshal fields stand for canonical JSON round trips. -/
structure Crypto where
  keyID : String → Bytes → String
  verifySig : String → Bytes → Bytes → Bytes → Bool
  doHash : String → Bytes → Bytes
  encodeRoot : SignedRoot → Bytes
  encodeTargets : TargetsData → Bytes
  marshalSnapshot : SignedSnapshot → Bytes
  unmarshalSnapshot : Bytes → Option SignedSnapshot
  unmarshalRoot : Bytes → Option SignedRoot
  unmarshalTargets : Bytes → Option TargetsData

/-- Go map assignment `m[k] = v` on an association list: replaces the
binding if the key is present, otherwise appends it. -/
def insertKV {β : Type} : List (String × β) → String → β → List (String × β)
  | [], k, v => [(k, v)]
  | (k₀, v₀) :: rest, k, v =>
    if k₀ == k then (k, v) :: rest else (k₀, v₀) :: insertKV rest k v

/-- Modelled from the spec: the Verifier (§4.5). `signed.VerifyRoot` is not
under src/ (only its callers are), so it is modelled from the spec's words:
ignore signatures whose key id is not in the key map or whose method does
not match the key's algorithm, count the distinct key ids that produced a
valid signature over the signed body, and accept iff that count reaches the
threshold (root rotation checks signatures only, with no expiry check). -/
def validSigners (c : Crypto) (body : Bytes) (sigs : List Signature)
    (keys : List (String × PublicKey)) : List String :=
  (sigs.filterMap fun s =>
    match keys.lookup s.keyID with
    | none => none
    | some k =>
      if s.method == k.algorithm && c.verifySig s.method k.public body s.signature then
        some s.keyID
      else none).dedup

/-- Modelled from the spec: acceptance decision of the Verifier (§4.5),
standing in for `signed.VerifyRoot`, which is not under src/. -/
def VerifyRoot (c : Crypto) (body : Bytes) (sigs : List Signature)
    (threshold : Int) (keys : List (String × PublicKey)) : Bool :=
  decide (threshold ≤ ((validSigners c body sigs keys).length : Int))

/-- The failure modes of `checkRoot` (`server/handlers/validation.go`).
`oldRootRoleNil` stands for the nil-pointer dereference the Go code makes
when a present old root lacks a "root" role entry. -/
inductive CheckRootErr
  | missingRootEntry
  | oldRootRoleNil
  | rotationUnsigned
  | newRootUnsigned
  | missingRole (r : String)
  | invalidThreshold (r : String)
  | insufficientKeys (r : String)
  | orphanedTimestampKey
deriving DecidableEq

/-- The `oldKeys` map built by `checkRoot`: for each listed key id whose key
is contained in the root's key map, a fresh public key from its algorithm
and bytes; ids with no key in the map are skipped. -/
def filterPresentKeys (root : SignedRoot) (kids : List String) :
    List (String × PublicKey) :=
  kids.foldl
    (fun m kid =>
      match root.keys.lookup kid with
      | none => m
      | some k => insertKV m kid { algorithm := k.algorithm, public := k.public })
    []

/-- The old-root phase of `checkRoot`: yields the old threshold, the old key
map, and the initial rotation flag (`len(oldKeys) != len(newRootRole.KeyIDs)`).
With no old root these default to threshold 1, no keys, no rotation. -/
def checkOldRoot (oldRoot : Option SignedRoot) (newRR : RootRole) :
    Except CheckRootErr (Int × List (String × PublicKey) × Bool) :=
  match oldRoot with
  | none => .ok (1, [], false)
  | some old =>
    match old.roles.lookup "root" with
    | none => .error .oldRootRoleNil
    | some oldRR =>
      let oldKeys := filterPresentKeys old oldRR.keyIDs
      .ok (oldRR.threshold, oldKeys, decide (oldKeys.length ≠ newRR.keyIDs.length))

/-- The new-root key loop of `checkRoot`: builds the `newKeys` map from the
new root-role key ids whose keys are present, and raises the rotation flag
if (when an old root exists) any such id is absent from `oldKeys`. -/
def newKeysRotation (oldRootPresent : Bool) (oldKeys : List (String × PublicKey))
    (rot : Bool) (newRoot : SignedRoot) (newRR : RootRole) :
    List (String × PublicKey) × Bool :=
  newRR.keyIDs.foldl
    (fun acc kid =>
      match newRoot.keys.lookup kid with
      | none => acc
      | some k =>
        (insertKV acc.1 kid { algorithm := k.algorithm, public := k.public },
         acc.2 || (oldRootPresent && (oldKeys.lookup kid).isNone)))
    ([], rot)

/-- One iteration of `checkRoot`'s required-roles loop: the role must be
present, with threshold at least 1 (exactly 1 for "timestamp") and at least
threshold many key ids. -/
def checkRequiredRole (root : SignedRoot) (r : String) :
    Except CheckRootErr RootRole :=
  match root.roles.lookup r with
  | none => .error (.missingRole r)
  | some role =>
    if (r == "timestamp" && role.threshold != 1) || role.threshold < 1 then
      .error (.invalidThreshold r)
    else if (role.keyIDs.length : Int) < role.threshold then
      .error (.insufficientKeys r)
    else .ok role

/-- The required-roles loop of `checkRoot` over root, targets, snapshot and
timestamp, in source order; returns the timestamp role's key ids. -/
def checkRoles (root : SignedRoot) : Except CheckRootErr (List String) :=
  match checkRequiredRole root "root" with
  | .error e => .error e
  | .ok _ =>
    match checkRequiredRole root "targets" with
    | .error e => .error e
    | .ok _ =>
      match checkRequiredRole root "snapshot" with
      | .error e => .error e
      | .ok _ =>
        match checkRequiredRole root "timestamp" with
        | .error e => .error e
        | .ok tsRole => .ok tsRole.keyIDs

/-- Source `checkRoot` from `server/handlers/validation.go`: rejects an invalid
rotation, an invalid signature threshold, an invalid set of roles and keys,
or an orphaned timestamp key. `data.RootFromSigned(newSigned)` is the
marshal/unmarshal round trip of the new root, which the shallow embedding
treats as the identity. -/
def checkRoot (c : Crypto) (oldRoot : Option SignedRoot) (newRoot : SignedRoot)
    (timestampKey : PublicKey) : Except CheckRootErr Unit :=
  match newRoot.roles.lookup "root" with
  | none => .error .missingRootEntry
  | some newRR =>
    match checkOldRoot oldRoot newRR with
    | .error e => .error e
    | .ok (oldThreshold, oldKeys, rot) =>
      let nk := newKeysRotation oldRoot.isSome oldKeys rot newRoot newRR
      let body := c.encodeRoot newRoot
      if nk.2 && !(VerifyRoot c body newRoot.signatures oldThreshold oldKeys) then
        .error .rotationUnsigned
      else if !(VerifyRoot c body newRoot.signatures newRR.threshold nk.1) then
        .error .newRootUnsigned
      else
        match checkRoles newRoot with
        | .error e => .error e
        | .ok timestampKeyIDs =>
          if timestampKeyIDs.any
              (fun kid => c.keyID timestampKey.algorithm timestampKey.public == kid) then
            .ok ()
          else .error .orphanedTimestampKey

/-- Source `checkHashes` from `server/handlers/validation.go`: every hash recorded
in the meta entry must equal the corresponding digest of the update bytes. -/
def checkHashes (c : Crypto) (meta : FileMeta) (update : Bytes) : Bool :=
  meta.hashes.all fun p => c.doHash p.1 update == p.2

/-- Source `checkSnapshotEntries` from `server/handlers/validation.go`: for every
role in the update bundle other than snapshot and timestamp, the proposed
snapshot's meta must contain an entry whose length equals the proposed
bytes and whose hashes match. The `oldSnap` parameter is carried but,
as in the source, never read. -/
def checkSnapshotEntries (c : Crypto) (role : String) (oldSnap : Option SignedSnapshot)
    (snap : SignedSnapshot) : List (String × MetaUpdate) → Except String Unit
  | [] => .ok ()
  | (r, update) :: rest =>
    if r == "snapshot" || r == "timestamp" then
      checkSnapshotEntries c role oldSnap snap rest
    else
      match snap.meta.lookup r with
      | none => .error ("snapshot missing metadata for " ++ r)
      | some m =>
        if (update.data.length : Int) != m.length then
          .error ("snapshot has incorrect length for " ++ r)
        else if !(checkHashes c m update.data) then
          .error ("snapshot has incorrect hashes for " ++ r)
        else checkSnapshotEntries c role oldSnap snap rest

/-- The error values produced by the metadata stores
(`tuf/store/httpstore.go` and the server storage layer). -/
inductive StoreErr
  | metaNotFound (resource : String)
  | serverUnavailable (code : Nat)
  | invalidOperation
  | malicious
  | offline
deriving DecidableEq

/-- The `err.(store.ErrMetaNotFound)` type assertion used by the client. -/
def isMetaNotFound : StoreErr → Bool
  | .metaNotFound _ => true
  | _ => false

/-- Source `maxSize` from the client package: the 5 MiB cap (`5 << 20`) applied to
root downloads. -/
def maxSize : Int := 5 * 2 ^ 20

/-- The root-fetch phase of `NotaryRepository.bootstrapClient`: try the
remote store first with the `maxSize` cap; if the remote reports that the
metadata was not found, fail with that error; on any other remote failure
fall back to the local cache with the same cap, and if the cache also
fails, return the original remote error. -/
def bootstrapClientRootFetch (remoteGet cacheGet : String → Int → Except StoreErr Bytes) :
    Except StoreErr Bytes :=
  match remoteGet "root" maxSize with
  | .ok rootJSON => .ok rootJSON
  | .error e =>
    if isMetaNotFound e then .error e
    else
      match cacheGet "root" maxSize with
      | .ok result => .ok result
      | .error _ => .error e

/-- Modelled from the spec: `notary.MaxDownloadSize`, whose defining
constant is not under src/; the spec fixes the "infinite" download cut-off
at 100 MiB. -/
def MaxDownloadSize : Int := 100 * 2 ^ 20

/-- Source `translateStatusToError` from `tuf/store/httpstore.go`, with the
HTTP 400 error-envelope parsing collapsed to `invalidOperation`. -/
def translateStatusToError (status : Nat) (resource : String) : Option StoreErr :=
  if status == 200 then none
  else if status == 404 then some (.metaNotFound resource)
  else if status == 400 then some .invalidOperation
  else if status == 429 then some .invalidOperation
  else some (.serverUnavailable status)

/-- Source `io.LimitReader(resp.Body, size)` followed by `ReadAll`: at most `size`
bytes of the body (none when `size` is negative). -/
def limitReader (size : Int) (body : Bytes) : Bytes :=
  body.take size.toNat

/-- Source `HTTPStore.GetMeta` from `tuf/store/httpstore.go`, with the HTTP
response abstracted to its status code, declared `Content-Length` and body
bytes: translate the status, treat size `-1` as `MaxDownloadSize`, reject a
declared length above the cap as malicious, and otherwise read at most
`size` bytes. -/
def GetMeta (status : Nat) (contentLength : Int) (respBody : Bytes)
    (name : String) (size : Int) : Except StoreErr Bytes :=
  match translateStatusToError status name with
  | some e => .error e
  | none =>
    let size := if size == -1 then MaxDownloadSize else size
    if contentLength > size then .error .malicious
    else .ok (limitReader size respBody)

/-- The per-GUN server storage reads the snapshot-generation path performs
(`storage.MetaStore`), abstracted to their results: the current root,
targets and snapshot blobs and the server-held snapshot key. -/
structure ServerStore where
  currentRoot : Except StoreErr Bytes
  currentTargets : Except StoreErr Bytes
  currentSnapshot : Except StoreErr Bytes
  snapshotKey : Except StoreErr (String × Bytes)

/-- The signer the server's TUF repo delegates to, abstracted to the result
of signing the snapshot role (`tr.sign` over the snapshot role's keys). -/
structure SignerEnv where
  snapshotSignatures : Except String (List Signature)

/-- The failure modes of the snapshot-fallback path of `validateUpdate`. -/
inductive GenErr
  | badRootNoSnapshotRole
  | badHierarchy
  | storage (msg : String)
  | couldNotLoad (msg : String)
  | signFailed (msg : String)
deriving DecidableEq

/-- The in-memory `tuf.Repo` state the snapshot-fallback path reads and
writes: the root, the targets map and the snapshot. -/
structure Repo where
  root : Option SignedRoot
  targets : List (String × TargetsData)
  snapshot : Option SignedSnapshot

/-- The root half of `prepRepo` (`server/handlers/validation.go`): when the
repo has no root, load the stored root blob and parse it (the source drops
`repo.SetRoot`'s error). -/
def prepRepoRoot (c : Crypto) (st : ServerStore) (repo : Repo) : Except GenErr Repo :=
  match repo.root with
  | some _ => .ok repo
  | none =>
    match st.currentRoot with
    | .error _ => .error (.couldNotLoad "root")
    | .ok rootJSON =>
      match c.unmarshalRoot rootJSON with
      | none => .error (.couldNotLoad "root")
      | some root => .ok { repo with root := some root }

/-- The targets half of `prepRepo`: when the repo has no "targets" role
loaded, load and parse the stored targets blob. -/
def prepRepoTargets (c : Crypto) (st : ServerStore) (repo : Repo) : Except GenErr Repo :=
  match repo.targets.lookup "targets" with
  | some _ => .ok repo
  | none =>
    match st.currentTargets with
    | .error _ => .error (.couldNotLoad "targets")
    | .ok targetsJSON =>
      match c.unmarshalTargets targetsJSON with
      | none => .error (.couldNotLoad "targets")
      | some t => .ok { repo with targets := insertKV repo.targets "targets" t }

/-- Source `prepRepo` from `server/handlers/validation.go`: ensure the repo holds a
root and a top-level targets role, loading either from storage if absent. -/
def prepRepo (c : Crypto) (st : ServerStore) (repo : Repo) : Except GenErr Repo :=
  match prepRepoRoot c st repo with
  | .error e => .error e
  | .ok repo₁ => prepRepoTargets c st repo₁

/-- The id of the snapshot key the server holds
(`data.NewPublicKey(algo, keyBytes).ID()` in `generateSnapshot`). The
source never checks `store.GetKey`'s error (its guard re-tests
`role == nil`), so on failure the key is built from Go zero values. -/
def serverSnapshotKeyID (c : Crypto) (st : ServerStore) : String :=
  match st.snapshotKey with
  | .ok (algo, keyBytes) => c.keyID algo keyBytes
  | .error _ => c.keyID "" []

/-- Source `data.NewFileMeta` over a byte string: its length and sha256 digest. -/
def newFileMeta (c : Crypto) (b : Bytes) : FileMeta :=
  { length := (b.length : Int), hashes := [("sha256", c.doHash "sha256" b)] }

/-- Modelled from the spec: `repo.InitSnapshot` is not under src/. Per the
spec, initializing the snapshot builds meta entries (length and hashes)
from the current root and targets bytes, at version 1, unsigned until
`SignSnapshot`. -/
def InitSnapshot (c : Crypto) (repo : Repo) : Except GenErr SignedSnapshot :=
  match repo.root, repo.targets.lookup "targets" with
  | some root, some t =>
    .ok { version := 1,
          meta := [("root", newFileMeta c (c.encodeRoot root)),
                   ("targets", newFileMeta c (c.encodeTargets t))],
          signatures := [] }
  | _, _ => .error (.couldNotLoad "snapshot")

/-- Source `Repo.SignSnapshot` (gotuf `tuf.go`): marshal the current snapshot,
sign it with the snapshot role's keys (abstracted to the signer's result),
and store the produced signatures back on the snapshot. -/
def SignSnapshot (se : SignerEnv) (repo : Repo) : Except GenErr (SignedSnapshot × Repo) :=
  match repo.snapshot with
  | none => .error (.signFailed "no snapshot loaded")
  | some sn =>
    match se.snapshotSignatures with
    | .error e => .error (.signFailed e)
    | .ok sigs =>
      let signedSn : SignedSnapshot := { sn with signatures := sigs }
      .ok (signedSn, { repo with snapshot := some signedSn })

/-- The load-or-initialize step of `generateSnapshot`: parse and set the
previously stored snapshot when one exists, otherwise (storage reports
not-found) initialize a fresh one from the repo. -/
def loadOrInitSnapshot (c : Crypto) (st : ServerStore) (repo : Repo) : Except GenErr Repo :=
  match st.currentSnapshot with
  | .error e =>
    if isMetaNotFound e then
      match InitSnapshot c repo with
      | .error e₂ => .error e₂
      | .ok sn => .ok { repo with snapshot := some sn }
    else .error (.storage "could not retrieve previous snapshot")
  | .ok currentJSON =>
    match c.unmarshalSnapshot currentJSON with
    | none => .error (.storage "could not retrieve previous snapshot")
    | some sn => .ok { repo with snapshot := some sn }

/-- Source `generateSnapshot` from `server/handlers/validation.go`: require the
snapshot role (from the keys database populated by the effective root),
require the server-held snapshot key to be one of that role's key ids
(`ErrBadHierarchy` otherwise), load or initialize the snapshot, re-sign it
and package it as a `MetaUpdate` carrying the snapshot's version and
marshalled bytes. -/
def generateSnapshot (c : Crypto) (st : ServerStore) (se : SignerEnv)
    (snapshotRole : Option RootRole) (repo : Repo) :
    Except GenErr (MetaUpdate × Repo) :=
  match snapshotRole with
  | none => .error .badRootNoSnapshotRole
  | some role =>
    if !(role.keyIDs.any fun id => id == serverSnapshotKeyID c st) then
      .error .badHierarchy
    else
      match loadOrInitSnapshot c st repo with
      | .error e => .error e
      | .ok repo₁ =>
        match SignSnapshot se repo₁ with
        | .error e => .error e
        | .ok (signedSn, repo₂) =>
          .ok ({ role := "snapshot", version := signedSn.version,
                 data := c.marshalSnapshot signedSn }, repo₂)

/-- The snapshot-absent branch of `validateUpdate`
(`server/handlers/validation.go` lines 106-122): prepare the repo from
storage, generate and sign a snapshot, and append it to the accepted
update set. -/
def snapshotFallback (c : Crypto) (st : ServerStore) (se : SignerEnv)
    (snapshotRole : Option RootRole) (repo : Repo) (updates : List MetaUpdate) :
    Except GenErr (List MetaUpdate × Repo) :=
  match prepRepo c st repo with
  | .error e => .error e
  | .ok repo₁ =>
    match generateSnapshot c st se snapshotRole repo₁ with
    | .error e => .error e
    | .ok (update, repo₂) => .ok (updates ++ [update], repo₂)

/-- Source `nearExpiry` from the client package: whether the root's expiry instant
lies before now plus six months (`time.Now().AddDate(0, 6, 0)`); instants
are modelled as integers on an abstract timeline, with the computed
six-months-from-now instant passed in. -/
def nearExpiry (expires plus6mo : Int) : Bool :=
  decide (expires < plus6mo)

/-- The failure modes of `NotaryRepository.Publish`. -/
inductive PublishErr
  | repoNotInitialized
  | bootstrap (e : StoreErr)
  | signFailed (role : String)
  | uploadFailed
deriving DecidableEq

/-- What a run of `Publish` did: which roles were re-signed and which roles
the single `SetMultiMeta` upload carried. -/
structure PublishOutcome where
  rootResigned : Bool
  targetsResigned : Bool
  snapshotResigned : Bool
  uploadRoot : Bool
  uploadTargets : Bool
  uploadSnapshot : Bool
deriving DecidableEq

/-- The inputs `Publish` branches on, abstracted to their results: the
bootstrap-from-remote outcome, whether the local metadata loads on the
first-publish path, the in-memory root's dirty flag and expiry, the
six-months-from-now instant, and the outcomes of the signing and upload
calls. -/
structure PublishEnv where
  bootstrapRemote : Except StoreErr Unit
  localLoadOk : Bool
  rootDirty : Bool
  rootExpires : Int
  plus6mo : Int
  signRootOk : Bool
  signTargetsOk : Bool
  signSnapshotOk : Bool
  uploadOk : Bool

/-- The tail of `NotaryRepository.Publish` after the bootstrap branch:
re-sign root only when it is near expiry or dirty, always re-sign targets
and snapshot, and send one multi-role upload containing root only when it
was re-signed here or this is a first publish (`updateRoot0`). -/
def publishCore (env : PublishEnv) (updateRoot0 : Bool) :
    Except PublishErr PublishOutcome :=
  let resign := nearExpiry env.rootExpires env.plus6mo || env.rootDirty
  if resign && !env.signRootOk then .error (.signFailed "root")
  else
    let updateRoot := updateRoot0 || resign
    if !env.signTargetsOk then .error (.signFailed "targets")
    else if !env.signSnapshotOk then .error (.signFailed "snapshot")
    else if !env.uploadOk then .error .uploadFailed
    else
      .ok { rootResigned := resign, targetsResigned := true, snapshotResigned := true,
            uploadRoot := updateRoot, uploadTargets := true, uploadSnapshot := true }

/-- Source `NotaryRepository.Publish` (client package), at the level of its control
flow: bootstrapping from the remote decides between the already-published
path and the first-publish path (remote 404 plus a successful local load,
which forces the initial root into the upload); any other bootstrap error
aborts. -/
def Publish (env : PublishEnv) : Except PublishErr PublishOutcome :=
  match env.bootstrapRemote with
  | .ok _ => publishCore env false
  | .error e =>
    if isMetaNotFound e then
      if env.localLoadOk then publishCore env true
      else .error .repoNotInitialized
    else .error (.bootstrap e)

/-- Source `data.PrivateKey` as a value, for stating that the remote signer never
returns one. -/
structure PrivateKeyHandle where
  algorithm : String
  material : Bytes
deriving DecidableEq

/-- Source `NotarySigner.GetPrivateKey` from `signer/client.go`: errors in all
cases (`nil, "", errors.New(...)` in the source, modelled as `Except`). -/
def NotarySignerGetPrivateKey (keyid : String) :
    Except String (PrivateKeyHandle × String) :=
  .error "Private key access not permitted."

/-- Source `changelist.Change`: one staged edit (`TufChange`). The `kind` field is
the source's `type` field. -/
structure Change where
  action : String
  scope : String
  kind : String
  path : String
  content : Bytes
deriving DecidableEq

/-- The repository operations `applyTargetsChange` invokes, abstracted over
the repo state type: Go's `(result, err)` pairs become state plus an
optional error, and `unmarshalFileMeta` is `json.Unmarshal` into
`data.FileMeta`. -/
structure RepoOps (R : Type) where
  unmarshalFileMeta : Bytes → Option FileMeta
  addTargets : R → String → List (String × FileMeta) → R × Option String
  removeTargets : R → String → String → R × Option String

/-- Source `applyTargetsChange` from the client package: a content blob that fails
to parse returns a nil error; a create adds the target, a delete removes
it, and either operation's error is propagated. -/
def applyTargetsChange {R : Type} (ops : RepoOps R) (repo : R) (c : Change) :
    R × Option String :=
  match ops.unmarshalFileMeta c.content with
  | none => (repo, none)
  | some meta =>
    if c.action == "create" then
      ops.addTargets repo "targets" [(c.path, meta)]
    else if c.action == "delete" then
      ops.removeTargets repo "targets" c.path
    else (repo, none)

/-- The loop body of `applyChangelist`: `applyTargetsChange`'s return value
is discarded (only its in-place repo mutation survives), and the `err`
variable tested by the loop is never assigned. -/
def applyChangelistLoop {R : Type} (ops : RepoOps R) (repo : R) (err : Option String) :
    List Change → R × Option String
  | [] => (repo, none)
  | c :: rest =>
    let repo₁ := if c.scope == "targets" then (applyTargetsChange ops repo c).1 else repo
    match err with
    | some e => (repo₁, some e)
    | none => applyChangelistLoop ops repo₁ none rest

/-- Source `applyChangelist` from the client package: fold the staged changes over
the repo, starting from a nil `err`. -/
def applyChangelist {R : Type} (ops : RepoOps R) (repo : R) (changes : List Change) :
    R × Option String :=
  applyChangelistLoop ops repo none changes

/-- The outcome of `os.Stat` on a path, abstracted to the three cases
`os.IsNotExist` distinguishes: success, a not-exist error, or any other
error. -/
inductive StatResult
  | ok
  | errNotExist
  | errOther
deriving DecidableEq

/-- Source `os.IsNotExist` applied to a stat outcome. -/
def isNotExist : StatResult → Bool
  | .errNotExist => true
  | _ => false

/-- Source `FileExists` from `gotuf/utils/utils.go`: stat the path and return
`os.IsNotExist(err)`. -/
def FileExists (stat : String → StatResult) (path : String) : Bool :=
  isNotExist (stat path)

theorem lookup_insertKV {β : Type} (m : List (String × β)) (k : String) (v : β) :
    (insertKV m k v).lookup k = some v := by
  induction m with
  | nil => simp [insertKV, List.lookup]
  | cons p rest ih =>
    obtain ⟨k₀, v₀⟩ := p
    by_cases h : k₀ == k
    · simp [insertKV, h, List.lookup]
    · have hne : ¬(k == k₀) := by
        simp only [beq_iff_eq] at h ⊢
        exact fun hk => h hk.symm
      simp [insertKV, h, List.lookup, hne, ih]

/-- C8: for every key id, `NotarySigner.GetPrivateKey` returns an error and
never yields private key material, so signatures can be obtained only
through the sign operation. -/
theorem notarySigner_getPrivateKey_always_errors :
    ∀ (keyid : String) (pk : PrivateKeyHandle) (role : String),
      NotarySignerGetPrivateKey keyid ≠ .ok (pk, role) ∧
      NotarySignerGetPrivateKey keyid = .error "Private key access not permitted." := by
  intro keyid pk role
  exact ⟨fun h => by simp [NotarySignerGetPrivateKey] at h, rfl⟩

theorem notarySigner_getPrivateKey_always_errors_witness :
    NotarySignerGetPrivateKey "abc" ≠ .ok ({ algorithm := "ecdsa", material := [] }, "root") ∧
    NotarySignerGetPrivateKey "abc" = .error "Private key access not permitted." :=
  notarySigner_getPrivateKey_always_errors "abc" { algorithm := "ecdsa", material := [] } "root"

/-- C9: for every changelist and every behaviour of the underlying targets
operations, `applyChangelist` returns a nil error: the error result of each
individual targets change is discarded and never surfaced. -/
theorem applyChangelist_always_returns_nil :
    ∀ (R : Type) (ops : RepoOps R) (repo : R) (changes : List Change),
      (applyChangelist ops repo changes).2 = none := by
  intro R ops repo changes
  unfold applyChangelist
  induction changes generalizing repo with
  | nil => rfl
  | cons c rest ih => simpa [applyChangelistLoop] using ih _

/-- C10: `FileExists` returns true exactly when stat-ing the path reports
that the file does not exist, and returns false for a path that does
exist — the opposite of what its name suggests. -/
theorem fileExists_true_iff_not_exist :
    ∀ (stat : String → StatResult) (path : String),
      (FileExists stat path = true ↔ stat path = .errNotExist) ∧
      (stat path = .ok → FileExists stat path = false) := by
  intro stat path
  constructor
  · cases h : stat path <;> simp [FileExists, isNotExist, h]
  · intro h
    simp [FileExists, isNotExist, h]

theorem fileExists_true_iff_not_exist_witness :
    FileExists (fun _ => .errNotExist) "present" = true ∧
    FileExists (fun _ => .ok) "present" = false :=
  ⟨(fileExists_true_iff_not_exist (fun _ => .errNotExist) "present").1.mpr rfl,
   (fileExists_true_iff_not_exist (fun _ => .ok) "present").2 rfl⟩

theorem limitReader_length_le (size : Int) (body : Bytes) :
    (limitReader size body).length ≤ size.toNat := by
  simpa [limitReader] using List.length_take_le size.toNat body

/-- C6: `HTTPStore.GetMeta` fails with the malicious-server error whenever
the declared content length exceeds the effective size cap (before any
bytes are returned for parsing), never returns a body beyond the cap, and
treats a size of -1 as the 100 MiB `MaxDownloadSize`. -/
theorem getMeta_enforces_size_cap :
    ∀ (status : Nat) (contentLength : Int) (respBody : Bytes) (name : String) (size : Int),
      MaxDownloadSize = 104857600 ∧
      (translateStatusToError status name = none →
        contentLength > (if size == -1 then MaxDownloadSize else size) →
        GetMeta status contentLength respBody name size = .error .malicious) ∧
      (∀ b, GetMeta status contentLength respBody name size = .ok b →
        b.length ≤ (if size == -1 then MaxDownloadSize else size).toNat) := by
  intro status contentLength respBody name size
  refine ⟨rfl, ?_, ?_⟩
  · intro ht hgt
    unfold GetMeta
    split
    next e he => rw [ht] at he; exact Option.noConfusion he
    next => exact if_pos hgt
  · intro b hb
    unfold GetMeta at hb
    split at hb
    · exact Except.noConfusion hb
    next =>
      split at hb
      next hsize =>
        dsimp only [] at hb
        split at hb
        · exact Except.noConfusion hb
        next =>
          simp only [Except.ok.injEq] at hb
          subst hb
          simp only [hsize, if_true]
          exact limitReader_length_le _ _
      next hsize =>
        dsimp only [] at hb
        split at hb
        · exact Except.noConfusion hb
        next =>
          simp only [Except.ok.injEq] at hb
          subst hb
          simp only [hsize, if_false, Bool.false_eq_true]
          exact limitReader_length_le _ _

theorem getMeta_enforces_size_cap_witness :
    GetMeta 200 200 (List.replicate 200 7) "targets" 100 = .error .malicious ∧
    [1, 2, 3].length ≤ ((if (3 : Int) == -1 then MaxDownloadSize else 3)).toNat :=
  ⟨(getMeta_enforces_size_cap 200 200 (List.replicate 200 7) "targets" 100).2.1 rfl (by decide),
   (getMeta_enforces_size_cap 200 3 [1, 2, 3] "targets" 3).2.2 [1, 2, 3] rfl⟩

/-- C3 counterexample: when the remote reports the root metadata as not
found (HTTP 404), `bootstrapClient` returns that error without falling
back to the local cache, even though the cache holds a root. -/
theorem bootstrapClient_404_skips_cache :
    bootstrapClientRootFetch (fun _ _ => .error (.metaNotFound "root")) (fun _ _ => .ok [1]) =
      .error (.metaNotFound "root") ∧
    (fun (_ : String) (_ : Int) => (.ok [1] : Except StoreErr Bytes)) "root" maxSize = .ok [1] :=
  ⟨rfl, rfl⟩

/-- C3 (amended): the client fetches the root blob from the remote with the
5 MiB `maxSize` cap; when the remote reports the metadata as not found
(404) the call fails with that error and the cache is not consulted; on
any other remote failure it falls back to the locally cached root (also
capped at `maxSize`); and when falling back it fails only if the cache
also yields no root, returning the original remote error. -/
theorem bootstrapClient_root_fetch_fallback :
    ∀ (remoteGet cacheGet : String → Int → Except StoreErr Bytes),
      maxSize = 5242880 ∧
      (∀ b, remoteGet "root" maxSize = .ok b →
        bootstrapClientRootFetch remoteGet cacheGet = .ok b) ∧
      (∀ r, remoteGet "root" maxSize = .error (.metaNotFound r) →
        bootstrapClientRootFetch remoteGet cacheGet = .error (.metaNotFound r)) ∧
      (∀ e b, remoteGet "root" maxSize = .error e → isMetaNotFound e = false →
        cacheGet "root" maxSize = .ok b →
        bootstrapClientRootFetch remoteGet cacheGet = .ok b) ∧
      (∀ e e₂, remoteGet "root" maxSize = .error e → isMetaNotFound e = false →
        cacheGet "root" maxSize = .error e₂ →
        bootstrapClientRootFetch remoteGet cacheGet = .error e) := by
  intro remoteGet cacheGet
  refine ⟨rfl, ?_, ?_, ?_, ?_⟩
  · intro b hr
    unfold bootstrapClientRootFetch
    rw [hr]
  · intro r hr
    unfold bootstrapClientRootFetch
    rw [hr]
    rfl
  · intro e b hr he hc
    unfold bootstrapClientRootFetch
    rw [hr]
    simp only [he, Bool.false_eq_true, if_false]
    rw [hc]
  · intro e e₂ hr he hc
    unfold bootstrapClientRootFetch
    rw [hr]
    simp only [he, Bool.false_eq_true, if_false]
    rw [hc]

theorem bootstrapClient_root_fetch_fallback_witness :
    bootstrapClientRootFetch (fun _ _ => .error .offline) (fun _ _ => .ok [2]) = .ok [2] :=
  (bootstrapClient_root_fetch_fallback (fun _ _ => .error .offline) (fun _ _ => .ok [2])).2.2.2.1
    .offline [2] rfl rfl rfl

theorem publishCore_ok {env : PublishEnv} {updateRoot0 : Bool} {out : PublishOutcome}
    (h : publishCore env updateRoot0 = .ok out) :
    out = { rootResigned := nearExpiry env.rootExpires env.plus6mo || env.rootDirty,
            targetsResigned := true, snapshotResigned := true,
            uploadRoot := updateRoot0 || (nearExpiry env.rootExpires env.plus6mo || env.rootDirty),
            uploadTargets := true, uploadSnapshot := true } := by
  unfold publishCore at h
  dsimp only [] at h
  repeat' split at h
  all_goals
    first
      | exact Except.noConfusion h
      | (simp only [Except.ok.injEq] at h; exact h.symm)

/-- C7: during a publish on an already-published repository, root is
re-signed exactly when it is near expiry or the in-memory root is dirty,
and is included in the multi-role upload exactly in that case; targets and
snapshot are re-signed and uploaded on every publish; on a first publish
(remote 404) the root is always included in the upload. -/
theorem publish_resign_policy :
    ∀ (env : PublishEnv) (out : PublishOutcome),
      (env.bootstrapRemote = .ok () → Publish env = .ok out →
        out.rootResigned = (nearExpiry env.rootExpires env.plus6mo || env.rootDirty) ∧
        out.uploadRoot = out.rootResigned ∧
        out.targetsResigned = true ∧ out.snapshotResigned = true ∧
        out.uploadTargets = true ∧ out.uploadSnapshot = true) ∧
      (∀ e, env.bootstrapRemote = .error e → isMetaNotFound e = true →
        Publish env = .ok out →
        out.rootResigned = (nearExpiry env.rootExpires env.plus6mo || env.rootDirty) ∧
        out.uploadRoot = true ∧ out.uploadTargets = true ∧ out.uploadSnapshot = true) := by
  intro env out
  constructor
  · intro hboot hpub
    unfold Publish at hpub
    rw [hboot] at hpub
    have := publishCore_ok hpub
    subst this
    simp
  · intro e hboot hnf hpub
    unfold Publish at hpub
    rw [hboot] at hpub
    dsimp only [] at hpub
    rw [if_pos hnf] at hpub
    split at hpub
    · have := publishCore_ok hpub
      subst this
      simp
    · exact Except.noConfusion hpub

theorem publish_resign_policy_witness :
    ({ rootResigned := true, targetsResigned := true, snapshotResigned := true,
       uploadRoot := true, uploadTargets := true, uploadSnapshot := true } :
        PublishOutcome).rootResigned = (nearExpiry 10 5 || true) ∧
    ({ rootResigned := true, targetsResigned := true, snapshotResigned := true,
       uploadRoot := true, uploadTargets := true, uploadSnapshot := true } :
        PublishOutcome).uploadRoot =
      ({ rootResigned := true, targetsResigned := true, snapshotResigned := true,
         uploadRoot := true, uploadTargets := true, uploadSnapshot := true } :
          PublishOutcome).rootResigned ∧
    True = True ∧ True = True ∧ True = True ∧ True = True := by
  have h := (publish_resign_policy
    { bootstrapRemote := .ok (), localLoadOk := true, rootDirty := true,
      rootExpires := 10, plus6mo := 5, signRootOk := true, signTargetsOk := true,
      signSnapshotOk := true, uploadOk := true }
    { rootResigned := true, targetsResigned := true, snapshotResigned := true,
      uploadRoot := true, uploadTargets := true, uploadSnapshot := true }).1 rfl rfl
  exact ⟨h.1, h.2.1, rfl, rfl, rfl, rfl⟩

/-- A crypto instance with trivial primitives, for evaluating the embedded
functions at concrete inputs. -/
def trivialCrypto : Crypto where
  keyID := fun alg _ => alg
  verifySig := fun _ _ _ _ => true
  doHash := fun _ _ => []
  encodeRoot := fun _ => []
  encodeTargets := fun _ => []
  marshalSnapshot := fun _ => []
  unmarshalSnapshot := fun _ => none
  unmarshalRoot := fun _ => none
  unmarshalTargets := fun _ => none

/-- C2 (amended): whenever `checkSnapshotEntries` accepts, every role in
the update bundle other than snapshot and timestamp has a meta entry in
the proposed snapshot whose length equals the proposed bytes and whose
hashes all match; roles that are merely stored but not part of the update
are not checked. -/
theorem checkSnapshotEntries_checks_updated_roles :
    ∀ (c : Crypto) (role : String) (oldSnap : Option SignedSnapshot)
      (snap : SignedSnapshot) (roles : List (String × MetaUpdate)),
      checkSnapshotEntries c role oldSnap snap roles = .ok () →
      ∀ p ∈ roles, p.1 ≠ "snapshot" → p.1 ≠ "timestamp" →
        ∃ m, snap.meta.lookup p.1 = some m ∧ m.length = (p.2.data.length : Int) ∧
          checkHashes c m p.2.data = true := by
  intro c role oldSnap snap roles
  induction roles with
  | nil =>
    intro _ p hp
    cases hp
  | cons q rest ih =>
    obtain ⟨r, update⟩ := q
    intro h p hp h₁ h₂
    rw [checkSnapshotEntries] at h
    by_cases hskip : (r == "snapshot" || r == "timestamp") = true
    · rw [if_pos hskip] at h
      rcases List.mem_cons.mp hp with hpq | hpr
      · subst hpq
        simp only [Bool.or_eq_true, beq_iff_eq] at hskip
        rcases hskip with h' | h'
        · exact absurd h' h₁
        · exact absurd h' h₂
      · exact ih h p hpr h₁ h₂
    · rw [if_neg hskip] at h
      cases hm : snap.meta.lookup r with
      | none => rw [hm] at h; exact Except.noConfusion h
      | some m =>
        rw [hm] at h
        dsimp only [] at h
        by_cases hlen : ((update.data.length : Int) != m.length) = true
        · rw [if_pos hlen] at h; exact Except.noConfusion h
        · rw [if_neg hlen] at h
          by_cases hhash : (!(checkHashes c m update.data)) = true
          · rw [if_pos hhash] at h; exact Except.noConfusion h
          · rw [if_neg hhash] at h
            rcases List.mem_cons.mp hp with hpq | hpr
            · subst hpq
              refine ⟨m, hm, ?_, ?_⟩
              · simp only [bne_iff_ne, ne_eq, not_not] at hlen
                exact hlen.symm
              · simpa using hhash
            · exact ih h p hpr h₁ h₂

/-- The snapshot previously stored for the repository in the C2
counterexample: it lists a stored "targets" role. -/
def storedSnapDemo : SignedSnapshot :=
  { version := 1, meta := [("targets", { length := 2, hashes := [] })], signatures := [] }

/-- The proposed snapshot in the C2 counterexample: its meta is empty. -/
def proposedSnapDemo : SignedSnapshot :=
  { version := 2, meta := [], signatures := [] }

/-- C2 counterexample: an update bundle containing only a snapshot is
accepted by `checkSnapshotEntries` although the stored role "targets"
(listed in the stored snapshot handed to the function) has no meta entry
in the proposed snapshot: stored-but-not-updated roles are never checked. -/
theorem checkSnapshotEntries_ignores_stored_roles :
    checkSnapshotEntries trivialCrypto "snapshot" (some storedSnapDemo) proposedSnapDemo
        [("snapshot", { role := "snapshot", version := 2, data := [7] })] = .ok () ∧
    storedSnapDemo.meta.lookup "targets" = some { length := 2, hashes := [] } ∧
    proposedSnapDemo.meta.lookup "targets" = none :=
  ⟨rfl, rfl, rfl⟩

def c2SnapW : SignedSnapshot :=
  { version := 2, meta := [("root", { length := 0, hashes := [] })], signatures := [] }

def c2UpdateW : MetaUpdate := { role := "root", version := 1, data := [] }

theorem checkSnapshotEntries_checks_updated_roles_witness :
    ∃ m, c2SnapW.meta.lookup "root" = some m ∧
      m.length = ((c2UpdateW.data.length : Int)) ∧
      checkHashes trivialCrypto m c2UpdateW.data = true := by
  have h := checkSnapshotEntries_checks_updated_roles trivialCrypto "snapshot" none
    c2SnapW [("root", c2UpdateW)] rfl ("root", c2UpdateW) (by decide)
    (by decide) (by decide)
  simpa using h

theorem checkRequiredRole_ok {root : SignedRoot} {r : String} {role : RootRole}
    (h : checkRequiredRole root r = .ok role) :
    root.roles.lookup r = some role ∧ 1 ≤ role.threshold ∧
    role.threshold ≤ (role.keyIDs.length : Int) ∧
    (r = "timestamp" → role.threshold = 1) := by
  unfold checkRequiredRole at h
  split at h
  · exact Except.noConfusion h
  next role₀ heq =>
    split at h
    · exact Except.noConfusion h
    next hcond =>
      split at h
      · exact Except.noConfusion h
      next hlen =>
        simp only [Except.ok.injEq] at h
        subst h
        simp only [Bool.or_eq_true, Bool.and_eq_true, beq_iff_eq, bne_iff_ne,
          decide_eq_true_eq, not_or, not_and, not_not] at hcond
        refine ⟨heq, ?_, ?_, ?_⟩
        · omega
        · omega
        · exact fun ht => hcond.1 ht

theorem checkRoles_ok {root : SignedRoot} {tsIDs : List String}
    (h : checkRoles root = .ok tsIDs) :
    (∃ role, checkRequiredRole root "root" = .ok role) ∧
    (∃ role, checkRequiredRole root "targets" = .ok role) ∧
    (∃ role, checkRequiredRole root "snapshot" = .ok role) ∧
    (∃ tsRole, checkRequiredRole root "timestamp" = .ok tsRole ∧ tsIDs = tsRole.keyIDs) := by
  unfold checkRoles at h
  split at h
  · exact Except.noConfusion h
  next r₁ h₁ =>
    split at h
    · exact Except.noConfusion h
    next r₂ h₂ =>
      split at h
      · exact Except.noConfusion h
      next r₃ h₃ =>
        split at h
        · exact Except.noConfusion h
        next r₄ h₄ =>
          simp only [Except.ok.injEq] at h
          exact ⟨⟨r₁, h₁⟩, ⟨r₂, h₂⟩, ⟨r₃, h₃⟩, ⟨r₄, h₄, h.symm⟩⟩

theorem checkRoot_ok_parts {c : Crypto} {oldRoot : Option SignedRoot}
    {newRoot : SignedRoot} {tsKey : PublicKey}
    (h : checkRoot c oldRoot newRoot tsKey = .ok ()) :
    ∃ newRR oldThreshold oldKeys rot,
      newRoot.roles.lookup "root" = some newRR ∧
      checkOldRoot oldRoot newRR = .ok (oldThreshold, oldKeys, rot) ∧
      ((newKeysRotation oldRoot.isSome oldKeys rot newRoot newRR).2 = true →
        VerifyRoot c (c.encodeRoot newRoot) newRoot.signatures oldThreshold oldKeys = true) ∧
      VerifyRoot c (c.encodeRoot newRoot) newRoot.signatures newRR.threshold
        (newKeysRotation oldRoot.isSome oldKeys rot newRoot newRR).1 = true ∧
      ∃ tsIDs, checkRoles newRoot = .ok tsIDs ∧
        tsIDs.any (fun kid => c.keyID tsKey.algorithm tsKey.public == kid) = true := by
  unfold checkRoot at h
  split at h
  · exact Except.noConfusion h
  next newRR heq =>
    split at h
    · exact Except.noConfusion h
    next oldThreshold oldKeys rot hold =>
      dsimp only [] at h
      split at h
      · exact Except.noConfusion h
      next hrot =>
        split at h
        · exact Except.noConfusion h
        next hver =>
          split at h
          · exact Except.noConfusion h
          next tsIDs hroles =>
            split at h
            next hts =>
              refine ⟨newRR, oldThreshold, oldKeys, rot, heq, hold, ?_, ?_, tsIDs, hroles, hts⟩
              · intro h₂
                simp only [h₂, Bool.true_and, Bool.not_eq_true'] at hrot
                cases hb : VerifyRoot c (c.encodeRoot newRoot) newRoot.signatures oldThreshold oldKeys
                · exact absurd hb hrot
                · rfl
              · simpa using hver
            next => exact Except.noConfusion h

/-- C1 (amended): when `checkRoot` accepts, the new root's signatures
verify against its own declared root-role threshold using its own declared
root-role keys (those whose key material the new root contains); and
whenever the rotation condition the code computes holds — the number of old
root-role key ids whose keys the old root contains differs from the number
of new root-role key ids, or some new root-role key id with key material
present is absent from the old present-key map — the new root's signatures
also verify against the old root's threshold using the old root's present
keys. -/
theorem checkRoot_rotation_quorums :
    ∀ (c : Crypto) (oldRoot : Option SignedRoot) (newRoot : SignedRoot) (tsKey : PublicKey)
      (newRR : RootRole) (oldThreshold : Int) (oldKeys : List (String × PublicKey)) (rot : Bool),
      newRoot.roles.lookup "root" = some newRR →
      checkOldRoot oldRoot newRR = .ok (oldThreshold, oldKeys, rot) →
      checkRoot c oldRoot newRoot tsKey = .ok () →
      ((newKeysRotation oldRoot.isSome oldKeys rot newRoot newRR).2 = true →
        VerifyRoot c (c.encodeRoot newRoot) newRoot.signatures oldThreshold oldKeys = true) ∧
      VerifyRoot c (c.encodeRoot newRoot) newRoot.signatures newRR.threshold
        (newKeysRotation oldRoot.isSome oldKeys rot newRoot newRR).1 = true := by
  intro c oldRoot newRoot tsKey newRR oldThreshold oldKeys rot hlook hold h
  obtain ⟨newRR', oldT', oldK', rot', hlook', hold', hrot', hver', _⟩ := checkRoot_ok_parts h
  rw [hlook] at hlook'
  obtain rfl : newRR = newRR' := Option.some.inj hlook'
  rw [hold] at hold'
  obtain ⟨h₁, h₂, h₃⟩ : oldThreshold = oldT' ∧ oldKeys = oldK' ∧ rot = rot' := by
    have := Except.ok.inj hold'
    exact ⟨congrArg Prod.fst this, congrArg Prod.fst (congrArg Prod.snd this),
      congrArg Prod.snd (congrArg Prod.snd this)⟩
  subst h₁; subst h₂; subst h₃
  exact ⟨hrot', hver'⟩

/-- Demo public keys; the validation code compares them only through the
association-list keys they are registered under and their algorithm tags. -/
def demoKeyA : PublicKey := { algorithm := "alg", public := [1] }

def demoKeyB : PublicKey := { algorithm := "alg", public := [2] }

def demoKeyTS : PublicKey := { algorithm := "TS", public := [9] }

/-- The old root in the C1 counterexample: root role over key ids A and B
(both keys present) at threshold 2. -/
def oldRootDemo : SignedRoot :=
  { keys := [("A", demoKeyA), ("B", demoKeyB)],
    roles := [("root", { keyIDs := ["A", "B"], threshold := 2 })],
    signatures := [] }

/-- The new root in the C1 counterexample: its root role lists key ids A
and C — a different id set than the old root's A and B — but contains key
material only for A, and carries a single signature by A. -/
def newRootDemo : SignedRoot :=
  { keys := [("A", demoKeyA), ("TS", demoKeyTS)],
    roles := [("root", { keyIDs := ["A", "C"], threshold := 1 }),
              ("targets", { keyIDs := ["A"], threshold := 1 }),
              ("snapshot", { keyIDs := ["A"], threshold := 1 }),
              ("timestamp", { keyIDs := ["TS"], threshold := 1 })],
    signatures := [{ keyID := "A", method := "alg", signature := [0] }] }

/-- The timestamp key the server holds in the demo; under `trivialCrypto`
its id is "TS". -/
def tsKeyDemo : PublicKey := { algorithm := "TS", public := [] }

/-- C1 counterexample: the set of root-role key ids changes from the old
root ({"A", "B"}) to the new root ({"A", "C"}) — a rotation in the claim's
sense — yet `checkRoot` accepts even though the new root does not verify
against the old root's threshold (2) with the old root's keys: the code's
rotation test misses the change because "C" has no key material in the new
root, so it is skipped, and the counts of present old keys and of new key
ids agree. -/
theorem checkRoot_undetected_rotation :
    checkRoot trivialCrypto (some oldRootDemo) newRootDemo tsKeyDemo = .ok () ∧
    (newRootDemo.roles.lookup "root").map RootRole.keyIDs = some ["A", "C"] ∧
    (oldRootDemo.roles.lookup "root").map RootRole.keyIDs = some ["A", "B"] ∧
    "C" ∈ (["A", "C"] : List String) ∧ "C" ∉ (["A", "B"] : List String) ∧
    VerifyRoot trivialCrypto (trivialCrypto.encodeRoot newRootDemo) newRootDemo.signatures 2
      (filterPresentKeys oldRootDemo ["A", "B"]) = false :=
  ⟨rfl, rfl, rfl, by decide, by decide, rfl⟩

/-- The old root used by the C1 witness: a single root key A at threshold 1. -/
def oldRootW : SignedRoot :=
  { keys := [("A", demoKeyA)],
    roles := [("root", { keyIDs := ["A"], threshold := 1 })],
    signatures := [] }

/-- The new root used by the C1 witness: a genuine rotation from A to B,
signed by both. -/
def newRootW : SignedRoot :=
  { keys := [("B", demoKeyB), ("TS", demoKeyTS)],
    roles := [("root", { keyIDs := ["B"], threshold := 1 }),
              ("targets", { keyIDs := ["B"], threshold := 1 }),
              ("snapshot", { keyIDs := ["B"], threshold := 1 }),
              ("timestamp", { keyIDs := ["TS"], threshold := 1 })],
    signatures := [{ keyID := "A", method := "alg", signature := [0] },
                   { keyID := "B", method := "alg", signature := [0] }] }

theorem checkRoot_rotation_quorums_witness :
    ((newKeysRotation (some oldRootW).isSome [("A", demoKeyA)] false newRootW
        { keyIDs := ["B"], threshold := 1 }).2 = true →
      VerifyRoot trivialCrypto (trivialCrypto.encodeRoot newRootW) newRootW.signatures 1
        [("A", demoKeyA)] = true) ∧
    VerifyRoot trivialCrypto (trivialCrypto.encodeRoot newRootW) newRootW.signatures
      ({ keyIDs := ["B"], threshold := 1 } : RootRole).threshold
      (newKeysRotation (some oldRootW).isSome [("A", demoKeyA)] false newRootW
        { keyIDs := ["B"], threshold := 1 }).1 = true :=
  checkRoot_rotation_quorums trivialCrypto (some oldRootW) newRootW tsKeyDemo
    { keyIDs := ["B"], threshold := 1 } 1 [("A", demoKeyA)] false rfl rfl rfl

/-- C4: `checkRoot` accepts only when each of the four canonical roles is
present in the new root with threshold at least 1 and at least threshold
many key ids, the timestamp role's threshold is exactly 1, and some
timestamp key id equals the id of the server-held timestamp key; by
contraposition, violating any of these causes rejection. -/
theorem checkRoot_role_requirements :
    ∀ (c : Crypto) (oldRoot : Option SignedRoot) (newRoot : SignedRoot) (tsKey : PublicKey),
      checkRoot c oldRoot newRoot tsKey = .ok () →
      (∀ r ∈ ["root", "targets", "snapshot", "timestamp"],
        ∃ role, newRoot.roles.lookup r = some role ∧ 1 ≤ role.threshold ∧
          role.threshold ≤ (role.keyIDs.length : Int) ∧
          (r = "timestamp" → role.threshold = 1)) ∧
      ∃ tsRole, newRoot.roles.lookup "timestamp" = some tsRole ∧
        ∃ kid ∈ tsRole.keyIDs, c.keyID tsKey.algorithm tsKey.public = kid := by
  intro c oldRoot newRoot tsKey h
  obtain ⟨newRR, oldT, oldK, rot, hlook, hold, hrot, hver, tsIDs, hroles, hts⟩ :=
    checkRoot_ok_parts h
  obtain ⟨⟨r₁, h₁⟩, ⟨r₂, h₂⟩, ⟨r₃, h₃⟩, tsRole, h₄, hIDs⟩ := checkRoles_ok hroles
  constructor
  · intro r hr
    simp only [List.mem_cons, List.not_mem_nil, or_false] at hr
    rcases hr with rfl | rfl | rfl | rfl
    · obtain ⟨hl, ht, hk, _⟩ := checkRequiredRole_ok h₁
      exact ⟨r₁, hl, ht, hk, by intro hc; exact absurd hc (by decide)⟩
    · obtain ⟨hl, ht, hk, _⟩ := checkRequiredRole_ok h₂
      exact ⟨r₂, hl, ht, hk, by intro hc; exact absurd hc (by decide)⟩
    · obtain ⟨hl, ht, hk, _⟩ := checkRequiredRole_ok h₃
      exact ⟨r₃, hl, ht, hk, by intro hc; exact absurd hc (by decide)⟩
    · obtain ⟨hl, ht, hk, hts1⟩ := checkRequiredRole_ok h₄
      exact ⟨tsRole, hl, ht, hk, hts1⟩
  · obtain ⟨hl, _, _, _⟩ := checkRequiredRole_ok h₄
    refine ⟨tsRole, hl, ?_⟩
    subst hIDs
    obtain ⟨kid, hkid, hbeq⟩ := List.any_eq_true.mp hts
    exact ⟨kid, hkid, beq_iff_eq.mp hbeq⟩

theorem checkRoot_role_requirements_witness :
    (∀ r ∈ ["root", "targets", "snapshot", "timestamp"],
      ∃ role, newRootDemo.roles.lookup r = some role ∧ 1 ≤ role.threshold ∧
        role.threshold ≤ (role.keyIDs.length : Int) ∧
        (r = "timestamp" → role.threshold = 1)) ∧
    ∃ tsRole, newRootDemo.roles.lookup "timestamp" = some tsRole ∧
      ∃ kid ∈ tsRole.keyIDs, trivialCrypto.keyID tsKeyDemo.algorithm tsKeyDemo.public = kid :=
  checkRoot_role_requirements trivialCrypto (some oldRootDemo) newRootDemo tsKeyDemo rfl

theorem prepRepoRoot_ok {c : Crypto} {st : ServerStore} {repo repo₁ : Repo}
    (h : prepRepoRoot c st repo = .ok repo₁) :
    repo₁.root.isSome ∧ repo₁.targets = repo.targets ∧
    (∀ r, repo.root = some r → repo₁ = repo) := by
  unfold prepRepoRoot at h
  split at h
  next r hr =>
    simp only [Except.ok.injEq] at h
    subst h
    exact ⟨by rw [hr]; rfl, rfl, fun _ _ => rfl⟩
  next hnone =>
    split at h
    · exact Except.noConfusion h
    next rootJSON hjson =>
      split at h
      · exact Except.noConfusion h
      next root hparse =>
        simp only [Except.ok.injEq] at h
        subst h
        refine ⟨rfl, rfl, ?_⟩
        intro r hr
        rw [hnone] at hr
        exact Option.noConfusion hr

theorem prepRepoTargets_ok {c : Crypto} {st : ServerStore} {repo repo₁ : Repo}
    (h : prepRepoTargets c st repo = .ok repo₁) :
    (repo₁.targets.lookup "targets").isSome ∧ repo₁.root = repo.root := by
  unfold prepRepoTargets at h
  split at h
  next t ht =>
    simp only [Except.ok.injEq] at h
    subst h
    exact ⟨by rw [ht]; rfl, rfl⟩
  next hnone =>
    split at h
    · exact Except.noConfusion h
    next tJSON hjson =>
      split at h
      · exact Except.noConfusion h
      next t hparse =>
        simp only [Except.ok.injEq] at h
        subst h
        refine ⟨?_, rfl⟩
        show ((insertKV repo.targets "targets" t).lookup "targets").isSome
        rw [lookup_insertKV]
        rfl

/-- C5: when an update bundle carries no snapshot, the fallback path of
`validateUpdate` succeeds only having checked that the id of the
server-held snapshot key is among the snapshot role's key ids in the
effective root, after ensuring the repo holds a root and targets (loading
stored ones only when absent), and after loading the previous snapshot or
initializing a fresh one; the snapshot so obtained is re-signed with the
signer's signatures and appended, marshalled, as one extra update to the
accepted set. When the key id does not match, the whole validation fails
with the bad-hierarchy error. -/
theorem snapshotFallback_spec :
    ∀ (c : Crypto) (st : ServerStore) (se : SignerEnv) (snapshotRole : Option RootRole)
      (repo : Repo) (updates : List MetaUpdate),
      (∀ out, snapshotFallback c st se snapshotRole repo updates = .ok out →
        (∃ role, snapshotRole = some role ∧
          role.keyIDs.any (fun id => id == serverSnapshotKeyID c st) = true) ∧
        (∃ repo₁, prepRepo c st repo = .ok repo₁ ∧ repo₁.root.isSome ∧
          (repo₁.targets.lookup "targets").isSome ∧
          (∀ r, repo.root = some r → repo₁.root = some r) ∧
          ∃ repo₂, loadOrInitSnapshot c st repo₁ = .ok repo₂ ∧
            ∃ sn sigs, repo₂.snapshot = some sn ∧ se.snapshotSignatures = .ok sigs ∧
              out.1 = updates ++
                [{ role := "snapshot", version := sn.version,
                   data := c.marshalSnapshot { sn with signatures := sigs } }] ∧
              out.2.snapshot = some { sn with signatures := sigs })) ∧
      (∀ role repo₁, snapshotRole = some role → prepRepo c st repo = .ok repo₁ →
        role.keyIDs.any (fun id => id == serverSnapshotKeyID c st) = false →
        snapshotFallback c st se snapshotRole repo updates = .error .badHierarchy) := by
  intro c st se snapshotRole repo updates
  constructor
  · intro out h
    unfold snapshotFallback at h
    split at h
    · exact Except.noConfusion h
    next repo₁ hprep =>
      split at h
      · exact Except.noConfusion h
      next update repo₂ hgen =>
        simp only [Except.ok.injEq] at h
        subst h
        cases hsr : snapshotRole with
        | none =>
          rw [hsr] at hgen
          unfold generateSnapshot at hgen
          exact Except.noConfusion hgen
        | some role =>
          rw [hsr] at hgen
          unfold generateSnapshot at hgen
          dsimp only [] at hgen
          split at hgen
          · exact Except.noConfusion hgen
          next hgate =>
            split at hgen
            · exact Except.noConfusion hgen
            next repoS hload =>
              split at hgen
              · exact Except.noConfusion hgen
              next signedSn repoT hsign =>
                simp only [Except.ok.injEq, Prod.mk.injEq] at hgen
                obtain ⟨hupd, hrepo⟩ := hgen
                subst hupd
                subst hrepo
                unfold SignSnapshot at hsign
                split at hsign
                · exact Except.noConfusion hsign
                next sn hsn =>
                  split at hsign
                  · exact Except.noConfusion hsign
                  next sigs hsigs =>
                    simp only [Except.ok.injEq, Prod.mk.injEq] at hsign
                    obtain ⟨hsigned, hrt⟩ := hsign
                    subst hsigned
                    subst hrt
                    constructor
                    · refine ⟨role, rfl, ?_⟩
                      cases hany : role.keyIDs.any (fun id => id == serverSnapshotKeyID c st)
                      · rw [hany] at hgate
                        exact absurd rfl hgate
                      · rfl
                    · have hprep₀ := hprep
                      unfold prepRepo at hprep
                      split at hprep
                      · exact Except.noConfusion hprep
                      next repoR hpr =>
                        obtain ⟨hRsome, hRtargets, hRpres⟩ := prepRepoRoot_ok hpr
                        obtain ⟨hTlookup, hTroot⟩ := prepRepoTargets_ok hprep
                        refine ⟨repo₁, hprep₀, ?_, hTlookup, ?_, repoS, hload,
                          sn, sigs, hsn, hsigs, rfl, rfl⟩
                        · rw [hTroot]; exact hRsome
                        · intro r hr
                          rw [hTroot, hRpres r hr, hr]
  · intro role repo₁ hrole hprep hgate
    unfold snapshotFallback
    rw [hprep]
    dsimp only []
    have hg : generateSnapshot c st se snapshotRole repo₁ = .error .badHierarchy := by
      unfold generateSnapshot
      rw [hrole]
      simp [hgate]
    rw [hg]

/-- The repo used by the C5 witness: root and targets already loaded. -/
def repoW : Repo :=
  { root := some oldRootW, targets := [("targets", { version := 1 })], snapshot := none }

/-- The server store used by the C5 witness: it holds a snapshot key whose
id (under `trivialCrypto`) is "SK" and stores no previous snapshot. -/
def stW : ServerStore :=
  { currentRoot := .error .offline, currentTargets := .error .offline,
    currentSnapshot := .error (.metaNotFound "snapshot"), snapshotKey := .ok ("SK", []) }

/-- The signer used by the C5 witness. -/
def seW : SignerEnv := { snapshotSignatures := .ok [] }

theorem snapshotFallback_spec_witness :
    snapshotFallback trivialCrypto stW seW
        (some { keyIDs := ["X"], threshold := 1 }) repoW [] = .error .badHierarchy :=
  (snapshotFallback_spec trivialCrypto stW seW (some { keyIDs := ["X"], threshold := 1 })
      repoW []).2 { keyIDs := ["X"], threshold := 1 } repoW rfl rfl rfl

theorem applyChangelist_always_returns_nil_witness :
    (applyChangelist
      { unmarshalFileMeta := fun _ => some { length := 1, hashes := [] },
        addTargets := fun (r : Nat) _ _ => (r, some "add failed"),
        removeTargets := fun r _ _ => (r, some "remove failed") }
      0 [{ action := "create", scope := "targets", kind := "target",
           path := "t", content := [1] }]).2 = none :=
  applyChangelist_always_returns_nil Nat
    { unmarshalFileMeta := fun _ => some { length := 1, hashes := [] },
      addTargets := fun r _ _ => (r, some "add failed"),
      removeTargets := fun r _ _ => (r, some "remove failed") }
    0 [{ action := "create", scope := "targets", kind := "target",
         path := "t", content := [1] }]
